import Mathlib

/-!
# VetCare License Server — shallow embedding

A shallow embedding of the core registry logic of `src/server.js` (an
Express application).  The in-memory registry `licenses` (a JS object
keyed by the hex digest of the license key) is modelled as an
association list `List (String × License)`; JS object keys are unique,
updates replace in place, fresh keys append.  Timestamps (`Date`
values and ISO strings, interconverted losslessly via `getTime`) are
modelled as integer milliseconds since the epoch.  JS `undefined` and
`null` are both modelled as `Option.none`; the code never
distinguishes them (every read is through a falsiness test or a `||`
default).  The SHA-256 digest `hashLicense` is kept as a function
parameter `hashFn : String → String`: no property below depends on the
digest's definition, only on where its output is used as the map key.
`saveLicenses` (file persistence) is the identity on the in-memory
state and is elided; the registry value returned by each operation is
the persisted state.
-/

namespace VetCare

/-- JS falsiness of an optional string request field: `undefined`,
`null` and the empty string are falsy (`!x` in the source). -/
def strFalsy : Option String → Bool
  | none => true
  | some s => s == ""

/-- One entry of `license.users` (`POST /api/licenses/:hash/users`
pushes `{username, role, addedAt, isActive}`).  `username` is the raw
request body value, which the handler never validates, so it may be
absent (`none`). -/
structure UserAssignment where
  username : Option String
  role : String
  addedAt : Int
  isActive : Bool
deriving DecidableEq

/-- One entry of `license.loginHistory`
(`{username, timestamp, success}` pushed by `/api/verify-user-license`). -/
structure LoginEntry where
  username : Option String
  timestamp : Int
  success : Bool
deriving DecidableEq

/-- A license record as built by `POST /api/licenses` and mutated by the
other handlers.  Fields the creation handler does not set
(`boundDeviceId`, `users`, `loginHistory`, `name`) are `Option`s
defaulting to `none` (JS `undefined`). -/
structure License where
  key : String
  customerId : String
  type : String
  created : Int
  expirationDate : Int
  validityDays : Int
  deviceFingerprint : Option String := none
  usageCount : Nat
  isActive : Bool
  boundDeviceId : Option String := none
  users : Option (List UserAssignment) := none
  loginHistory : Option (List LoginEntry) := none
  name : Option String := none
deriving DecidableEq

/-- The in-memory registry `licenses`: hash → record. -/
abbrev Registry := List (String × License)

/-- `licenses[hash]` (read). -/
def lookupLicense (reg : Registry) (h : String) : Option License :=
  (reg.find? (fun p => p.1 == h)).map Prod.snd

/-- `licenses[hash] = license` when `hash` is already a key of the
object: replace in place. -/
def setLicense (reg : Registry) (h : String) (l : License) : Registry :=
  reg.map (fun p => if p.1 == h then (h, l) else p)

/-- `licenses[hash] = license`: replace if present, else append (JS
object property insertion order). -/
def insertLicense (reg : Registry) (h : String) (l : License) : Registry :=
  if (lookupLicense reg h).isSome then setLicense reg h l else reg ++ [(h, l)]

/-- Milliseconds in a day (`24 * 60 * 60 * 1000`). -/
def msPerDay : Int := 86400000

/-- `Math.ceil((expirationDate - now) / (1000*60*60*24))` on integer
milliseconds: ceiling division by `msPerDay`. -/
def ceilDays (ms : Int) : Int := Int.ediv (ms + msPerDay - 1) msPerDay

/-- Response of `POST /api/licenses/validate`. -/
inductive ByKeyResult where
  | valid (customerId : String) (expirationDate : Int) (type : String)
  | invalid (reason : String)
deriving DecidableEq

/-- `POST /api/licenses/validate` (spec: `ValidateByKey`).  Ordered
checks: missing key, not found, expired, inactive; on success
increments `usageCount` and persists. -/
def validateByKey (hashFn : String → String) (reg : Registry) (now : Int)
    (licenseKey : Option String) : Registry × ByKeyResult :=
  if strFalsy licenseKey then
    (reg, .invalid "License key not provided")
  else
    match lookupLicense reg (hashFn (licenseKey.getD "")) with
    | none => (reg, .invalid "License not found")
    | some license =>
      if license.expirationDate < now then
        (reg, .invalid "License expired")
      else if !license.isActive then
        (reg, .invalid "License is inactive")
      else
        let license' := { license with usageCount := license.usageCount + 1 }
        (setLicense reg (hashFn (licenseKey.getD "")) license',
         .valid license.customerId license.expirationDate license.type)

/-- Response of `POST /api/verify-license`. -/
inductive DeviceResult where
  | valid (licenseName : String) (expirationDate : Int)
      (boundDeviceId : Option String) (remainingDays : Int)
  | invalid (reason : String)
deriving DecidableEq

/-- `POST /api/verify-license` (spec: `ValidateWithDevice`).  Ordered
checks: missing input, not found, expired, inactive, then the device
binding block: an unset (`falsy`) `boundDeviceId` is bound to the
supplied `deviceId`; a set one that differs rejects.  Note the handler
never touches `usageCount`. -/
def validateWithDevice (hashFn : String → String) (reg : Registry) (now : Int)
    (licenseKey deviceId : Option String) : Registry × DeviceResult :=
  if strFalsy licenseKey || strFalsy deviceId then
    (reg, .invalid "License key and device ID are required")
  else
    match lookupLicense reg (hashFn (licenseKey.getD "")) with
    | none => (reg, .invalid "License not found")
    | some license =>
      if license.expirationDate < now then
        (reg, .invalid "License expired")
      else if !license.isActive then
        (reg, .invalid "License is inactive")
      else if strFalsy license.boundDeviceId then
        let license' := { license with boundDeviceId := some (deviceId.getD "") }
        (setLicense reg (hashFn (licenseKey.getD "")) license',
         .valid (license'.name.getD "VetCare License") license'.expirationDate
           license'.boundDeviceId (ceilDays (license.expirationDate - now)))
      else if license.boundDeviceId != deviceId then
        (reg, .invalid "License is bound to a different device")
      else
        (reg,
         .valid (license.name.getD "VetCare License") license.expirationDate
           license.boundDeviceId (ceilDays (license.expirationDate - now)))

/-- Response of `POST /api/verify-user-license`. -/
inductive UserResult where
  | valid (customerId : String) (expirationDate : Int) (type : String)
      (username : Option String) (role : String)
  | invalid (reason : String)
deriving DecidableEq

/-- The login-history push of `/api/verify-user-license`: append the
entry, then keep only the last 100 (`slice(-100)`) when the length
exceeds 100. -/
def pushLogin (hist : List LoginEntry) (e : LoginEntry) : List LoginEntry :=
  let h' := hist ++ [e]
  if h'.length > 100 then h'.drop (h'.length - 100) else h'

/-- `POST /api/verify-user-license` (spec: `ValidateUser`).  Checks:
input presence, not found, expired, inactive, users non-empty, user
present, user active; on full success records the login attempt
(bounded to 100), increments `usageCount`, persists. -/
def validateUser (hashFn : String → String) (reg : Registry) (now : Int)
    (username licenseKey : Option String) : Registry × UserResult :=
  if strFalsy username || strFalsy licenseKey then
    (reg, .invalid "Username and license key are required")
  else
    match lookupLicense reg (hashFn (licenseKey.getD "")) with
    | none => (reg, .invalid "License not found")
    | some license =>
      if license.expirationDate < now then
        (reg, .invalid "License expired")
      else if !license.isActive then
        (reg, .invalid "License is inactive")
      else if (license.users.getD []).isEmpty then
        (reg, .invalid "No users assigned to this license")
      else
        match (license.users.getD []).find? (fun u => u.username == username) with
        | none => (reg, .invalid "User not assigned to this license")
        | some user =>
          if !user.isActive then
            (reg, .invalid "User is deactivated")
          else
            let hist := pushLogin (license.loginHistory.getD [])
              { username := username, timestamp := now, success := true }
            let license' := { license with
              loginHistory := some hist,
              usageCount := license.usageCount + 1 }
            (setLicense reg (hashFn (licenseKey.getD "")) license',
             .valid license.customerId license.expirationDate license.type
               user.username user.role)

/-- Response of `POST /api/licenses/:hash/users`. -/
inductive AddUserResult where
  | ok (user : UserAssignment)
  | notFound
  | duplicate
deriving DecidableEq

/-- `POST /api/licenses/:hash/users` (spec: `AddUser`).  404 if the
license is missing; 400 if a user with a (strictly) equal `username`
already exists; otherwise pushes `{username, role, addedAt: now,
isActive: true}`.  The handler performs no validation of `username`
itself. -/
def addUser (reg : Registry) (h : String) (now : Int)
    (username : Option String) (role : Option String) : Registry × AddUserResult :=
  match lookupLicense reg h with
  | none => (reg, .notFound)
  | some license =>
    let users := license.users.getD []
    match users.find? (fun u => u.username == username) with
    | some _ => (reg, .duplicate)
    | none =>
      let newUser : UserAssignment :=
        { username := username, role := role.getD "user", addedAt := now,
          isActive := true }
      (setLicense reg h { license with users := some (users ++ [newUser]) },
       .ok newUser)

/-- Response of `PUT /api/licenses/:hash/extend`. -/
inductive ExtendResult where
  | ok (license : License)
  | validationError
  | notFound
deriving DecidableEq

/-- `PUT /api/licenses/:hash/extend` (spec: `Extend`).  400 unless the
hash is truthy and `daysToAdd` is a truthy number `> 0` (`!daysToAdd ||
daysToAdd <= 0`, so a missing, zero or negative value fails); 404 if
the license is missing; otherwise adds `daysToAdd` days to
`expirationDate` and `daysToAdd` to `validityDays`. -/
def extend (reg : Registry) (h : String) (daysToAdd : Option Int) :
    Registry × ExtendResult :=
  if h == "" || (daysToAdd.map (fun d => decide (d ≤ 0))).getD true then
    (reg, .validationError)
  else
    match lookupLicense reg h with
    | none => (reg, .notFound)
    | some license =>
      let d := daysToAdd.getD 0
      let license' := { license with
        expirationDate := license.expirationDate + d * msPerDay,
        validityDays := license.validityDays + d }
      (setLicense reg h license', .ok license')

/-- Response of `POST /api/licenses`: the stored record together with
the hash it was stored under (the response spreads `{hash, ...license}`). -/
inductive IssueResult where
  | ok (hash : String) (license : License)
  | validationError
deriving DecidableEq

/-- The record literal built by `POST /api/licenses`: key
`VET-<customerId>-<randomSuffix>`, `expirationDate = now +
validityDays` days, `deviceFingerprint: null`, `usageCount: 0`,
`isActive: true`; `boundDeviceId`, `users`, `loginHistory` and `name`
are left absent. -/
def issuedLicense (now : Int) (cid : String) (ty : Option String)
    (vd : Option Int) (randomSuffix : String) : License :=
  { key := "VET-" ++ cid ++ "-" ++ randomSuffix
    customerId := cid
    type := ty.getD "production"
    created := now
    expirationDate := now + (vd.getD 365) * msPerDay
    validityDays := vd.getD 365
    deviceFingerprint := none
    usageCount := 0
    isActive := true }

/-- `POST /api/licenses` (spec: `Issue`).  400 when `customerId` is
falsy; otherwise builds the key (`randomSuffix` stands for the 16 hex
chars of `crypto.randomBytes(8)`), hashes it, stores the fresh record
and returns it with the hash attached. -/
def issue (hashFn : String → String) (reg : Registry) (now : Int)
    (customerId ty : Option String) (validityDays : Option Int)
    (randomSuffix : String) : Registry × IssueResult :=
  if strFalsy customerId then
    (reg, .validationError)
  else
    let license := issuedLicense now (customerId.getD "") ty validityDays
      randomSuffix
    (insertLicense reg (hashFn license.key) license,
     .ok (hashFn license.key) license)

/-- The stats object of `GET /api/stats` (the handler also returns the
constant `timeToResolve: '0h'`). -/
structure StatsR where
  total : Nat
  active : Nat
  inactive : Nat
  expired : Nat
  expiringIn30Days : Nat
  timeToResolve : String
  available : Nat
deriving DecidableEq

/-- One iteration of the `forEach` in `GET /api/stats`: classify a
record by `daysUntilExpiry = (expirationDate - now) / msPerDay`
(negative ⇒ expired; else `≤ 30` ⇒ expiring within 30 days) and by
`isActive`. -/
def statsStep (now : Int) (s : StatsR) (license : License) : StatsR :=
  let s1 :=
    if license.expirationDate < now then
      { s with expired := s.expired + 1 }
    else if license.expirationDate - now ≤ 30 * msPerDay then
      { s with expiringIn30Days := s.expiringIn30Days + 1 }
    else s
  if license.isActive then
    { s1 with active := s1.active + 1 }
  else
    { s1 with inactive := s1.inactive + 1 }

/-- `GET /api/stats` (spec: `Stats`): a single pass over all records at
call time, then `available = total - active`. -/
def stats (reg : Registry) (now : Int) : StatsR :=
  let base : StatsR :=
    { total := reg.length, active := 0, inactive := 0, expired := 0,
      expiringIn30Days := 0, timeToResolve := "0h", available := 0 }
  let s := reg.foldl (fun acc p => statsStep now acc p.2) base
  { s with available := s.total - s.active }

/-- The user list a reader observes (`license.users || []` in the GET
users handler and in `/api/verify-user-license`). -/
def usersOf (l : License) : List UserAssignment := l.users.getD []

/-- The last `n` elements of a list (JS `slice(-n)` for non-empty
results; for `l.length ≤ n` the whole list). -/
def lastN (n : Nat) (l : List α) : List α := l.drop (l.length - n)

/-! Concrete fixtures used by the witness theorems: a registry with a
single active license, valid until t = 1000000 ms, keyed (under
`hashFn = id`) by its own key string. -/

/-- A demo license as `POST /api/licenses` would build it. -/
def licDemo : License :=
  { key := "VET-c1-ABC", customerId := "c1", type := "production",
    created := 0, expirationDate := 1000000, validityDays := 1,
    usageCount := 0, isActive := true }

/-- A one-license demo registry (digest function `id`). -/
def regDemo : Registry := [("VET-c1-ABC", licDemo)]

/-- `licDemo` deactivated. -/
def licInactive : License := { licDemo with isActive := false }

/-- Registry holding the deactivated license. -/
def regInactive : Registry := [("VET-c1-ABC", licInactive)]

/-- A demo user assignment. -/
def userDemo : UserAssignment :=
  { username := some "ahmed", role := "user", addedAt := 5, isActive := true }

/-- `licDemo` with one assigned active user. -/
def licWithUser : License := { licDemo with users := some [userDemo] }

/-- Registry holding the license with one user. -/
def regWithUser : Registry := [("VET-c1-ABC", licWithUser)]

/-! ## Helper lemmas -/

/-- A non-empty string is truthy. -/
theorem strFalsy_some_ne {s : String} (h : s ≠ "") : strFalsy (some s) = false := by
  simp [strFalsy, h]

/-- If `h` is bound to `l₀` in `reg`, then after `setLicense reg h l`
the key `h` is bound to `l`. -/
theorem lookupLicense_setLicense (reg : Registry) (h : String) (l₀ l : License)
    (hfind : lookupLicense reg h = some l₀) :
    lookupLicense (setLicense reg h l) h = some l := by
  induction reg with
  | nil => simp [lookupLicense] at hfind
  | cons p rest ih =>
    by_cases hp : (p.1 == h) = true
    · simp only [lookupLicense, setLicense, List.map_cons, if_pos hp,
        List.find?_cons, beq_self_eq_true]
      rfl
    · have hb : (p.1 == h) = false := by simpa using hp
      have hnb : ¬ ((p.1 == h) = true) := by simp [hb]
      have hfind' : lookupLicense rest h = some l₀ := by
        simp only [lookupLicense, List.find?_cons, hb] at hfind
        exact hfind
      have hrec := ih hfind'
      simp only [lookupLicense, setLicense, List.map_cons] at hrec ⊢
      rw [if_neg hnb]
      simp only [List.find?_cons, hb]
      exact hrec

/-- `setLicense` does not touch keys other than `h`. -/
theorem lookupLicense_setLicense_ne (reg : Registry) (h : String) (l : License)
    (h' : String) (hne : h' ≠ h) :
    lookupLicense (setLicense reg h l) h' = lookupLicense reg h' := by
  induction reg with
  | nil => rfl
  | cons p rest ih =>
    by_cases hp : (p.1 == h) = true
    · have hph : p.1 = h := by simpa using hp
      have hb : ((h : String) == h') = false := by
        simp [BEq.comm]
        exact fun hx => hne hx.symm
      have hb' : (p.1 == h') = false := by rw [hph]; exact hb
      simp only [lookupLicense, setLicense, List.map_cons, if_pos hp,
        List.find?_cons, hb, hb']
      exact ih
    · have hb : (p.1 == h) = false := by simpa using hp
      have hnb : ¬ ((p.1 == h) = true) := by simp [hb]
      simp only [lookupLicense, setLicense, List.map_cons] at ih ⊢
      rw [if_neg hnb]
      by_cases hq : (p.1 == h') = true
      · simp only [List.find?_cons, hq]
      · have hqb : (p.1 == h') = false := by simpa using hq
        simp only [List.find?_cons, hqb]
        exact ih

/-- If `h` is absent from `reg`, `setLicense reg h l` is `reg` itself. -/
theorem setLicense_of_lookup_none (reg : Registry) (h : String) (l : License)
    (hnone : lookupLicense reg h = none) :
    setLicense reg h l = reg := by
  induction reg with
  | nil => rfl
  | cons p rest ih =>
    by_cases hp : (p.1 == h) = true
    · simp only [lookupLicense, List.find?_cons, hp] at hnone
      simp at hnone
    · have hb : (p.1 == h) = false := by simpa using hp
      have hnb : ¬ ((p.1 == h) = true) := by simp [hb]
      have hnone' : lookupLicense rest h = none := by
        simp only [lookupLicense, List.find?_cons, hb] at hnone
        exact hnone
      simp only [setLicense, List.map_cons, if_neg hnb]
      have := ih hnone'
      simp only [setLicense] at this
      rw [this]

/-- After `insertLicense reg h l`, the key `h` is bound to `l`. -/
theorem lookupLicense_insertLicense (reg : Registry) (h : String) (l : License) :
    lookupLicense (insertLicense reg h l) h = some l := by
  unfold insertLicense
  by_cases hs : (lookupLicense reg h).isSome
  · rw [if_pos hs]
    rcases Option.isSome_iff_exists.mp hs with ⟨l₀, hl₀⟩
    exact lookupLicense_setLicense reg h l₀ l hl₀
  · rw [if_neg hs]
    have hnone : lookupLicense reg h = none := by
      rcases hx : lookupLicense reg h with _ | l₀
      · rfl
      · rw [hx] at hs; simp at hs
    induction reg with
    | nil => simp [lookupLicense, List.find?_cons]
    | cons p rest ih =>
      have hb : (p.1 == h) = false := by
        by_contra hc
        have hp : (p.1 == h) = true := by
          rcases hy : (p.1 == h) with _ | _
          · exact absurd hy hc
          · rfl
        simp only [lookupLicense, List.find?_cons, hp] at hnone
        simp at hnone
      have hnone' : lookupLicense rest h = none := by
        simp only [lookupLicense, List.find?_cons, hb] at hnone
        exact hnone
      have hs' : ¬ (lookupLicense rest h).isSome := by simp [hnone']
      simp only [List.cons_append, lookupLicense, List.find?_cons, hb]
      exact ih hs' hnone'

/-- The bounded-history push equals keeping the last 100 entries of the
appended history. -/
theorem pushLogin_eq_lastN (hist : List LoginEntry) (e : LoginEntry) :
    pushLogin hist e = lastN 100 (hist ++ [e]) := by
  unfold pushLogin lastN
  by_cases hgt : (hist ++ [e]).length > 100
  · rw [if_pos hgt]
  · rw [if_neg hgt, Nat.sub_eq_zero_of_le (by omega), List.drop_zero]

/-- `lastN n` never yields more than `n` elements. -/
theorem length_lastN_le (n : Nat) (l : List α) : (lastN n l).length ≤ n := by
  unfold lastN
  rw [List.length_drop]
  omega

/-- `find?` skips a prefix containing no match. -/
theorem find?_append_of_none {α} {p : α → Bool} {l₁ : List α}
    (h : l₁.find? p = none) (l₂ : List α) :
    (l₁ ++ l₂).find? p = l₂.find? p := by
  induction l₁ with
  | nil => rfl
  | cons a rest ih =>
    have hb : p a = false := by
      by_contra hc
      have hp : p a = true := by
        rcases hy : p a with _ | _
        · exact absurd hy hc
        · rfl
      simp only [List.find?_cons, hp] at h
      simp at h
    have h' : rest.find? p = none := by
      simp only [List.find?_cons, hb] at h
      exact h
    simp only [List.cons_append, List.find?_cons, hb]
    exact ih h'

/-- The success branch of `validateByKey`. -/
theorem validateByKey_success_eq (hashFn : String → String) (reg : Registry)
    (now : Int) (key : String) (lic : License) (hk : key ≠ "")
    (hfind : lookupLicense reg (hashFn key) = some lic)
    (hexp : ¬ lic.expirationDate < now) (hact : lic.isActive = true) :
    validateByKey hashFn reg now (some key) =
      (setLicense reg (hashFn key) { lic with usageCount := lic.usageCount + 1 },
       .valid lic.customerId lic.expirationDate lic.type) := by
  simp [validateByKey, strFalsy_some_ne hk, hfind, hexp, hact]

/-- A `validateByKey` call whose outcome is `invalid` returns the
registry unchanged. -/
theorem validateByKey_fail_fst (hashFn : String → String) (reg : Registry)
    (now : Int) (lk : Option String) (reason : String)
    (h : (validateByKey hashFn reg now lk).2 = .invalid reason) :
    (validateByKey hashFn reg now lk).1 = reg := by
  revert h
  unfold validateByKey
  split
  · intro _; rfl
  · split
    · intro _; rfl
    · split
      · intro _; rfl
      · split
        · intro _; rfl
        · intro h; simp at h

/-- A `validateWithDevice` call whose outcome is `invalid` returns the
registry unchanged. -/
theorem validateWithDevice_fail_fst (hashFn : String → String) (reg : Registry)
    (now : Int) (lk dd : Option String) (reason : String)
    (h : (validateWithDevice hashFn reg now lk dd).2 = .invalid reason) :
    (validateWithDevice hashFn reg now lk dd).1 = reg := by
  revert h
  unfold validateWithDevice
  split
  · intro _; rfl
  · split
    · intro _; rfl
    · split
      · intro _; rfl
      · split
        · intro _; rfl
        · split
          · intro h; simp at h
          · split
            · intro _; rfl
            · intro h; simp at h

/-- A `validateUser` call whose outcome is `invalid` returns the
registry unchanged. -/
theorem validateUser_fail_fst (hashFn : String → String) (reg : Registry)
    (now : Int) (un lk : Option String) (reason : String)
    (h : (validateUser hashFn reg now un lk).2 = .invalid reason) :
    (validateUser hashFn reg now un lk).1 = reg := by
  revert h
  unfold validateUser
  split
  · intro _; rfl
  · split
    · intro _; rfl
    · split
      · intro _; rfl
      · split
        · intro _; rfl
        · split
          · intro _; rfl
          · split
            · intro _; rfl
            · split
              · intro _; rfl
              · intro h; simp at h

/-- The device-binding branch of `validateWithDevice`: an unbound
license gets bound to the supplied device. -/
theorem validateWithDevice_bind_eq (hashFn : String → String) (reg : Registry)
    (now : Int) (key d : String) (lic : License) (hk : key ≠ "") (hd : d ≠ "")
    (hfind : lookupLicense reg (hashFn key) = some lic)
    (hexp : ¬ lic.expirationDate < now) (hact : lic.isActive = true)
    (hunb : strFalsy lic.boundDeviceId = true) :
    validateWithDevice hashFn reg now (some key) (some d) =
      (setLicense reg (hashFn key) { lic with boundDeviceId := some d },
       .valid (lic.name.getD "VetCare License") lic.expirationDate (some d)
         (ceilDays (lic.expirationDate - now))) := by
  simp [validateWithDevice, strFalsy_some_ne hk, strFalsy_some_ne hd,
    hfind, hexp, hact, hunb]

/-- The bound branches of `validateWithDevice`: a mismatching device is
rejected without mutation, a matching one passes without mutation. -/
theorem validateWithDevice_bound_eq (hashFn : String → String) (reg : Registry)
    (now : Int) (key d d' : String) (lic : License)
    (hk : key ≠ "") (hd' : d' ≠ "")
    (hfind : lookupLicense reg (hashFn key) = some lic)
    (hexp : ¬ lic.expirationDate < now) (hact : lic.isActive = true)
    (hbd : lic.boundDeviceId = some d) (hdne : d ≠ "") :
    validateWithDevice hashFn reg now (some key) (some d') =
      if d = d' then
        (reg, .valid (lic.name.getD "VetCare License") lic.expirationDate
          (some d) (ceilDays (lic.expirationDate - now)))
      else
        (reg, .invalid "License is bound to a different device") := by
  have hfb : strFalsy lic.boundDeviceId = false := by
    rw [hbd]; exact strFalsy_some_ne hdne
  by_cases hdd : d = d'
  · subst hdd
    simp [validateWithDevice, strFalsy_some_ne hk, strFalsy_some_ne hd',
      hfind, hexp, hact, hfb, hbd]
  · simp [validateWithDevice, strFalsy_some_ne hk, strFalsy_some_ne hd',
      strFalsy_some_ne hdne, hfind, hexp, hact, hfb, hbd, hdd]

/-- The success branch of `validateUser`. -/
theorem validateUser_success_eq (hashFn : String → String) (reg : Registry)
    (now : Int) (uname key : String) (lic : License) (user : UserAssignment)
    (hu : uname ≠ "") (hk : key ≠ "")
    (hfind : lookupLicense reg (hashFn key) = some lic)
    (hexp : ¬ lic.expirationDate < now) (hact : lic.isActive = true)
    (hfu : (lic.users.getD []).find? (fun u => u.username == some uname) =
      some user)
    (hua : user.isActive = true) :
    validateUser hashFn reg now (some uname) (some key) =
      (setLicense reg (hashFn key)
        { lic with
          loginHistory := some (pushLogin (lic.loginHistory.getD [])
            { username := some uname, timestamp := now, success := true }),
          usageCount := lic.usageCount + 1 },
       .valid lic.customerId lic.expirationDate lic.type user.username
         user.role) := by
  have hne : (lic.users.getD []).isEmpty = false := by
    rcases hl : lic.users.getD [] with _ | ⟨a, rest⟩
    · rw [hl] at hfu; simp at hfu
    · rfl
  simp [validateUser, strFalsy_some_ne hu, strFalsy_some_ne hk,
    hfind, hexp, hact, hne, hfu, hua]

/-- `statsStep` only ever increments counters. -/
theorem statsStep_fields (now : Int) (s : StatsR) (lic : License) :
    (statsStep now s lic).total = s.total
    ∧ (statsStep now s lic).timeToResolve = s.timeToResolve
    ∧ (statsStep now s lic).available = s.available
    ∧ (statsStep now s lic).expired =
        s.expired + (if lic.expirationDate < now then 1 else 0)
    ∧ (statsStep now s lic).expiringIn30Days =
        s.expiringIn30Days +
          (if ¬ lic.expirationDate < now ∧
              lic.expirationDate - now ≤ 30 * msPerDay then 1 else 0)
    ∧ (statsStep now s lic).active = s.active + (if lic.isActive then 1 else 0)
    ∧ (statsStep now s lic).inactive =
        s.inactive + (if lic.isActive then 0 else 1) := by
  unfold statsStep
  by_cases h1 : lic.expirationDate < now <;>
    by_cases h2 : lic.expirationDate - now ≤ 30 * msPerDay <;>
      by_cases h3 : lic.isActive = true <;>
        simp [h1, h2, h3]

/-- Unrolling the `forEach` of `GET /api/stats` field by field. -/
theorem statsFold_fields (now : Int) (l : List (String × License)) (s : StatsR) :
    ((l.foldl (fun acc p => statsStep now acc p.2) s).total = s.total)
    ∧ ((l.foldl (fun acc p => statsStep now acc p.2) s).timeToResolve =
        s.timeToResolve)
    ∧ ((l.foldl (fun acc p => statsStep now acc p.2) s).available = s.available)
    ∧ ((l.foldl (fun acc p => statsStep now acc p.2) s).expired =
        s.expired + l.countP (fun p => decide (p.2.expirationDate < now)))
    ∧ ((l.foldl (fun acc p => statsStep now acc p.2) s).expiringIn30Days =
        s.expiringIn30Days + l.countP (fun p =>
          decide (¬ p.2.expirationDate < now ∧
            p.2.expirationDate - now ≤ 30 * msPerDay)))
    ∧ ((l.foldl (fun acc p => statsStep now acc p.2) s).active =
        s.active + l.countP (fun p => p.2.isActive))
    ∧ ((l.foldl (fun acc p => statsStep now acc p.2) s).inactive =
        s.inactive + l.countP (fun p => !p.2.isActive)) := by
  induction l generalizing s with
  | nil => simp
  | cons a rest ih =>
    obtain ⟨i1, i2, i3, i4, i5, i6, i7⟩ := ih (statsStep now s a.2)
    obtain ⟨t1, t2, t3, t4, t5, t6, t7⟩ := statsStep_fields now s a.2
    refine ⟨?_, ?_, ?_, ?_, ?_, ?_, ?_⟩ <;>
      simp only [List.foldl_cons, List.countP_cons, i1, i2, i3, i4, i5, i6, i7,
        t1, t2, t3, t4, t5, t6, t7]
    · by_cases h : a.2.expirationDate < now <;> (simp [h]; try omega)
    · by_cases h : ¬ a.2.expirationDate < now ∧
        a.2.expirationDate - now ≤ 30 * msPerDay <;> (simp [h]; try omega)
    · by_cases h : a.2.isActive = true <;> (simp [h]; try omega)
    · by_cases h : a.2.isActive = true <;> (simp [h]; try omega)

/-- Splitting a list count by a boolean predicate covers the list. -/
theorem countP_bool_split {α} (q : α → Bool) (l : List α) :
    l.countP q + l.countP (fun a => !q a) = l.length := by
  induction l with
  | nil => rfl
  | cons a rest ih =>
    rcases h : q a with _ | _ <;> simp [List.countP_cons, h] <;> omega

/-! ## Claims -/

/-- **C4.** `ValidateByKey` applies its checks in order with the first
failing one winning (missing key, then not found, then expired, then
inactive); in particular, a license whose `expirationDate` is in the
past yields `valid:false` with the expiration reason regardless of
`isActive`. -/
theorem claim_validateByKey_check_order
    (hashFn : String → String) (reg : Registry) (now : Int)
    (licenseKey : Option String) (lic : License) :
    (strFalsy licenseKey = true →
      validateByKey hashFn reg now licenseKey =
        (reg, .invalid "License key not provided"))
    ∧ (strFalsy licenseKey = false →
        lookupLicense reg (hashFn (licenseKey.getD "")) = none →
        validateByKey hashFn reg now licenseKey =
          (reg, .invalid "License not found"))
    ∧ (strFalsy licenseKey = false →
        lookupLicense reg (hashFn (licenseKey.getD "")) = some lic →
        lic.expirationDate < now →
        validateByKey hashFn reg now licenseKey =
          (reg, .invalid "License expired"))
    ∧ (strFalsy licenseKey = false →
        lookupLicense reg (hashFn (licenseKey.getD "")) = some lic →
        ¬ lic.expirationDate < now → lic.isActive = false →
        validateByKey hashFn reg now licenseKey =
          (reg, .invalid "License is inactive")) := by
  refine ⟨?_, ?_, ?_, ?_⟩
  · intro h; simp [validateByKey, h]
  · intro h1 h2; simp [validateByKey, h1, h2]
  · intro h1 h2 h3; simp [validateByKey, h1, h2, h3]
  · intro h1 h2 h3 h4; simp [validateByKey, h1, h2, h3, h4]

/-- Witness for C4: all four check outcomes on concrete registries. -/
theorem claim_validateByKey_check_order_witness :
    validateByKey id regDemo 0 none =
      (regDemo, .invalid "License key not provided")
    ∧ validateByKey id regDemo 0 (some "NOPE") =
      (regDemo, .invalid "License not found")
    ∧ validateByKey id regDemo 2000000 (some "VET-c1-ABC") =
      (regDemo, .invalid "License expired")
    ∧ validateByKey id regInactive 0 (some "VET-c1-ABC") =
      (regInactive, .invalid "License is inactive") := by
  refine ⟨?_, ?_, ?_, ?_⟩
  · exact (claim_validateByKey_check_order id regDemo 0 none licDemo).1
      (by decide)
  · exact (claim_validateByKey_check_order id regDemo 0 (some "NOPE")
      licDemo).2.1 (by decide) (by decide)
  · exact (claim_validateByKey_check_order id regDemo 2000000
      (some "VET-c1-ABC") licDemo).2.2.1 (by decide) (by decide) (by decide)
  · exact (claim_validateByKey_check_order id regInactive 0
      (some "VET-c1-ABC") licInactive).2.2.2 (by decide) (by decide)
      (by decide) (by decide)

/-- **C5.** `ValidateByKey` mutates state on success only: on a
non-expired, active license it stores back exactly `usageCount + 1`
and returns the success payload; every call whose outcome is
`valid:false` returns the registry entirely unchanged. -/
theorem claim_validateByKey_mutation
    (hashFn : String → String) (reg : Registry) (now : Int)
    (key : String) (lic : License) (hk : key ≠ "")
    (hfind : lookupLicense reg (hashFn key) = some lic)
    (hexp : ¬ lic.expirationDate < now) (hact : lic.isActive = true) :
    validateByKey hashFn reg now (some key) =
      (setLicense reg (hashFn key) { lic with usageCount := lic.usageCount + 1 },
       .valid lic.customerId lic.expirationDate lic.type)
    ∧ lookupLicense (validateByKey hashFn reg now (some key)).1 (hashFn key) =
        some { lic with usageCount := lic.usageCount + 1 }
    ∧ (∀ (lk : Option String) (reason : String),
        (validateByKey hashFn reg now lk).2 = .invalid reason →
        (validateByKey hashFn reg now lk).1 = reg) := by
  have hsucc := validateByKey_success_eq hashFn reg now key lic hk hfind hexp hact
  refine ⟨hsucc, ?_, ?_⟩
  · rw [hsucc]
    exact lookupLicense_setLicense reg (hashFn key) lic _ hfind
  · intro lk reason h
    exact validateByKey_fail_fst hashFn reg now lk reason h

/-- Witness for C5: one successful validation stores `usageCount = 1`. -/
theorem claim_validateByKey_mutation_witness :
    lookupLicense (validateByKey id regDemo 0 (some "VET-c1-ABC")).1
        (id "VET-c1-ABC") =
      some { licDemo with usageCount := licDemo.usageCount + 1 } :=
  (claim_validateByKey_mutation id regDemo 0 "VET-c1-ABC" licDemo (by decide)
    (by decide) (by decide) (by decide)).2.1

/-- **C1.** Device binding in `ValidateWithDevice` is a one-way,
one-time transition: with `boundDeviceId` unset, a successful call
with device `d` stores `boundDeviceId = some d`; once bound to `d`, a
call with `d' ≠ d` returns the device-mismatch reason and leaves the
registry unchanged, while a call with `d` still succeeds (also without
mutation). -/
theorem claim_device_binding_transition
    (hashFn : String → String) (reg : Registry) (now : Int)
    (key d d' : String) (lic : License)
    (hk : key ≠ "") (hd : d ≠ "") (hd' : d' ≠ "") (hne : d' ≠ d)
    (hfind : lookupLicense reg (hashFn key) = some lic)
    (hexp : ¬ lic.expirationDate < now) (hact : lic.isActive = true) :
    (lic.boundDeviceId = none →
      validateWithDevice hashFn reg now (some key) (some d) =
        (setLicense reg (hashFn key) { lic with boundDeviceId := some d },
         .valid (lic.name.getD "VetCare License") lic.expirationDate (some d)
           (ceilDays (lic.expirationDate - now)))
      ∧ lookupLicense (validateWithDevice hashFn reg now (some key) (some d)).1
          (hashFn key) = some { lic with boundDeviceId := some d })
    ∧ (lic.boundDeviceId = some d →
        validateWithDevice hashFn reg now (some key) (some d') =
          (reg, .invalid "License is bound to a different device")
        ∧ validateWithDevice hashFn reg now (some key) (some d) =
          (reg, .valid (lic.name.getD "VetCare License") lic.expirationDate
            (some d) (ceilDays (lic.expirationDate - now)))) := by
  constructor
  · intro hunb
    have hbind := validateWithDevice_bind_eq hashFn reg now key d lic hk hd
      hfind hexp hact (by rw [hunb]; rfl)
    refine ⟨hbind, ?_⟩
    rw [hbind]
    exact lookupLicense_setLicense reg (hashFn key) lic _ hfind
  · intro hbd
    constructor
    · have hmis := validateWithDevice_bound_eq hashFn reg now key d d' lic
        hk hd' hfind hexp hact hbd hd
      rw [if_neg (fun hc => hne hc.symm)] at hmis
      exact hmis
    · have hmat := validateWithDevice_bound_eq hashFn reg now key d d lic
        hk hd hfind hexp hact hbd hd
      rw [if_pos rfl] at hmat
      exact hmat

/-- Witness for C1: bind device `A`, then `B` is rejected without
mutation and `A` still passes. -/
theorem claim_device_binding_transition_witness :
    (validateWithDevice id regDemo 0 (some "VET-c1-ABC") (some "A") =
      (setLicense regDemo (id "VET-c1-ABC")
        { licDemo with boundDeviceId := some "A" },
       .valid (licDemo.name.getD "VetCare License") licDemo.expirationDate
         (some "A") (ceilDays (licDemo.expirationDate - 0)))
     ∧ lookupLicense
         (validateWithDevice id regDemo 0 (some "VET-c1-ABC") (some "A")).1
         (id "VET-c1-ABC") = some { licDemo with boundDeviceId := some "A" })
    ∧ (validateWithDevice id
        (setLicense regDemo "VET-c1-ABC" { licDemo with boundDeviceId := some "A" })
        0 (some "VET-c1-ABC") (some "B") =
        (setLicense regDemo "VET-c1-ABC" { licDemo with boundDeviceId := some "A" },
         .invalid "License is bound to a different device")
       ∧ validateWithDevice id
          (setLicense regDemo "VET-c1-ABC" { licDemo with boundDeviceId := some "A" })
          0 (some "VET-c1-ABC") (some "A") =
          (setLicense regDemo "VET-c1-ABC" { licDemo with boundDeviceId := some "A" },
           .valid (({ licDemo with boundDeviceId := some "A" } : License).name.getD
               "VetCare License")
             ({ licDemo with boundDeviceId := some "A" } : License).expirationDate
             (some "A")
             (ceilDays
               (({ licDemo with boundDeviceId := some "A" } : License).expirationDate
                 - 0)))) :=
  ⟨(claim_device_binding_transition id regDemo 0 "VET-c1-ABC" "A" "B" licDemo
      (by decide) (by decide) (by decide) (by decide) (by decide) (by decide)
      (by decide)).1 (by decide),
   (claim_device_binding_transition id
      (setLicense regDemo "VET-c1-ABC" { licDemo with boundDeviceId := some "A" })
      0 "VET-c1-ABC" "A" "B" { licDemo with boundDeviceId := some "A" }
      (by decide) (by decide) (by decide) (by decide) (by decide) (by decide)
      (by decide)).2 (by decide)⟩

/-- **C2.** `Issue` on a truthy `customerId` stores and returns (with
the hash attached) a record with `usageCount = 0`, `isActive = true`,
`boundDeviceId` unset, an empty observable user list and no
`loginHistory`. -/
theorem claim_issue_fresh_record
    (hashFn : String → String) (reg : Registry) (now : Int)
    (cid : String) (ty : Option String) (vd : Option Int) (suffix : String)
    (hcid : cid ≠ "") :
    issue hashFn reg now (some cid) ty vd suffix =
      (insertLicense reg (hashFn ("VET-" ++ cid ++ "-" ++ suffix))
        (issuedLicense now cid ty vd suffix),
       .ok (hashFn ("VET-" ++ cid ++ "-" ++ suffix))
        (issuedLicense now cid ty vd suffix))
    ∧ (issuedLicense now cid ty vd suffix).usageCount = 0
    ∧ (issuedLicense now cid ty vd suffix).isActive = true
    ∧ (issuedLicense now cid ty vd suffix).boundDeviceId = none
    ∧ usersOf (issuedLicense now cid ty vd suffix) = []
    ∧ (issuedLicense now cid ty vd suffix).loginHistory = none
    ∧ (issuedLicense now cid ty vd suffix).key = "VET-" ++ cid ++ "-" ++ suffix
    ∧ lookupLicense (issue hashFn reg now (some cid) ty vd suffix).1
        (hashFn ("VET-" ++ cid ++ "-" ++ suffix)) =
        some (issuedLicense now cid ty vd suffix) := by
  have hfal : strFalsy (some cid) = false := strFalsy_some_ne hcid
  have heq : issue hashFn reg now (some cid) ty vd suffix =
      (insertLicense reg (hashFn ("VET-" ++ cid ++ "-" ++ suffix))
        (issuedLicense now cid ty vd suffix),
       .ok (hashFn ("VET-" ++ cid ++ "-" ++ suffix))
        (issuedLicense now cid ty vd suffix)) := by
    simp [issue, hfal, issuedLicense]
  refine ⟨heq, rfl, rfl, rfl, rfl, rfl, rfl, ?_⟩
  rw [heq]
  exact lookupLicense_insertLicense reg _ _

/-- Witness for C2: issuing into the empty registry. -/
theorem claim_issue_fresh_record_witness :
    issue id [] 0 (some "c1") none none "ABC" =
      (insertLicense [] (id ("VET-" ++ "c1" ++ "-" ++ "ABC"))
        (issuedLicense 0 "c1" none none "ABC"),
       .ok (id ("VET-" ++ "c1" ++ "-" ++ "ABC"))
        (issuedLicense 0 "c1" none none "ABC"))
    ∧ (issuedLicense 0 "c1" none none "ABC").usageCount = 0
    ∧ (issuedLicense 0 "c1" none none "ABC").isActive = true
    ∧ (issuedLicense 0 "c1" none none "ABC").boundDeviceId = none
    ∧ usersOf (issuedLicense 0 "c1" none none "ABC") = []
    ∧ (issuedLicense 0 "c1" none none "ABC").loginHistory = none
    ∧ (issuedLicense 0 "c1" none none "ABC").key =
        "VET-" ++ "c1" ++ "-" ++ "ABC"
    ∧ lookupLicense (issue id [] 0 (some "c1") none none "ABC").1
        (id ("VET-" ++ "c1" ++ "-" ++ "ABC")) =
        some (issuedLicense 0 "c1" none none "ABC") :=
  claim_issue_fresh_record id [] 0 "c1" none none "ABC" (by decide)

/-- Counterexample to C3 as stated: this `validateWithDevice` call
succeeds (it binds the device and returns `valid`), yet the stored
license still has `usageCount = 0` — the handler never increments it. -/
theorem claim_usage_increment_cex :
    (validateWithDevice id regDemo 0 (some "VET-c1-ABC") (some "D")).2 =
      DeviceResult.valid "VetCare License" 1000000 (some "D") 1
    ∧ lookupLicense
        (validateWithDevice id regDemo 0 (some "VET-c1-ABC") (some "D")).1
        "VET-c1-ABC" = some { licDemo with boundDeviceId := some "D" }
    ∧ licDemo.usageCount = 0
    ∧ ({ licDemo with boundDeviceId := some "D" } : License).usageCount = 0 := by
  decide

/-- **C3 (amended).** `usageCount` is incremented by successful
`ValidateByKey` and `ValidateUser` calls; `ValidateWithDevice` never
changes any license's `usageCount`, not even on success. -/
theorem claim_usage_increment_amended
    (hashFn : String → String) (reg : Registry) (now : Int) :
    (∀ (key : String) (lic : License), key ≠ "" →
      lookupLicense reg (hashFn key) = some lic →
      ¬ lic.expirationDate < now → lic.isActive = true →
      lookupLicense (validateByKey hashFn reg now (some key)).1 (hashFn key) =
        some { lic with usageCount := lic.usageCount + 1 })
    ∧ (∀ (uname key : String) (lic : License) (user : UserAssignment),
        uname ≠ "" → key ≠ "" →
        lookupLicense reg (hashFn key) = some lic →
        ¬ lic.expirationDate < now → lic.isActive = true →
        (lic.users.getD []).find? (fun u => u.username == some uname) =
          some user →
        user.isActive = true →
        (lookupLicense (validateUser hashFn reg now (some uname) (some key)).1
          (hashFn key)).map License.usageCount = some (lic.usageCount + 1))
    ∧ (∀ (lk dd : Option String) (h : String),
        (lookupLicense (validateWithDevice hashFn reg now lk dd).1 h).map
          License.usageCount = (lookupLicense reg h).map License.usageCount) := by
  refine ⟨?_, ?_, ?_⟩
  · intro key lic hk hfind hexp hact
    rw [validateByKey_success_eq hashFn reg now key lic hk hfind hexp hact]
    exact lookupLicense_setLicense reg (hashFn key) lic _ hfind
  · intro uname key lic user hu hk hfind hexp hact hfu hua
    rw [validateUser_success_eq hashFn reg now uname key lic user hu hk hfind
      hexp hact hfu hua]
    rw [lookupLicense_setLicense reg (hashFn key) lic _ hfind]
    rfl
  · intro lk dd h
    unfold validateWithDevice
    split
    · rfl
    · split
      · rfl
      · rename_i license heq
        split
        · rfl
        · split
          · rfl
          · split
            · by_cases hh : h = hashFn (lk.getD "")
              · rw [hh, lookupLicense_setLicense reg _ license _ heq, heq]
                rfl
              · rw [lookupLicense_setLicense_ne reg _ _ h hh]
            · split
              · rfl
              · rfl

/-- Witness for the amended C3: a successful key validation and a
successful user validation store `usageCount = 1`, while a successful
device validation leaves it at 0. -/
theorem claim_usage_increment_amended_witness :
    lookupLicense (validateByKey id regDemo 0 (some "VET-c1-ABC")).1
        (id "VET-c1-ABC") =
      some { licDemo with usageCount := licDemo.usageCount + 1 }
    ∧ (lookupLicense
        (validateUser id regWithUser 0 (some "ahmed") (some "VET-c1-ABC")).1
        (id "VET-c1-ABC")).map License.usageCount =
      some (licWithUser.usageCount + 1)
    ∧ (lookupLicense
        (validateWithDevice id regDemo 0 (some "VET-c1-ABC") (some "D")).1
        "VET-c1-ABC").map License.usageCount =
      (lookupLicense regDemo "VET-c1-ABC").map License.usageCount :=
  ⟨(claim_usage_increment_amended id regDemo 0).1 "VET-c1-ABC" licDemo
    (by decide) (by decide) (by decide) (by decide),
   (claim_usage_increment_amended id regWithUser 0).2.1 "ahmed" "VET-c1-ABC"
    licWithUser userDemo (by decide) (by decide) (by decide) (by decide)
    (by decide) (by decide) (by decide),
   (claim_usage_increment_amended id regDemo 0).2.2 (some "VET-c1-ABC")
    (some "D") "VET-c1-ABC"⟩

/-- **C6.** For a fully successful `ValidateUser` call the stored
`loginHistory` is exactly the last 100 entries of the old history with
one `{username, timestamp, success}` entry appended (oldest evicted
first), so it never exceeds 100 entries; any failed call leaves the
registry unchanged (nothing is appended). -/
theorem claim_login_history_bound
    (hashFn : String → String) (reg : Registry) (now : Int)
    (uname key : String) (lic : License) (user : UserAssignment)
    (hu : uname ≠ "") (hk : key ≠ "")
    (hfind : lookupLicense reg (hashFn key) = some lic)
    (hexp : ¬ lic.expirationDate < now) (hact : lic.isActive = true)
    (hfu : (lic.users.getD []).find? (fun u => u.username == some uname) =
      some user)
    (hua : user.isActive = true) :
    lookupLicense (validateUser hashFn reg now (some uname) (some key)).1
        (hashFn key) =
      some { lic with
        loginHistory := some (lastN 100 ((lic.loginHistory.getD []) ++
          [{ username := some uname, timestamp := now, success := true }])),
        usageCount := lic.usageCount + 1 }
    ∧ (lastN 100 ((lic.loginHistory.getD []) ++
        [{ username := some uname, timestamp := now,
           success := true }])).length ≤ 100
    ∧ (∀ (un lk : Option String) (reason : String),
        (validateUser hashFn reg now un lk).2 = .invalid reason →
        (validateUser hashFn reg now un lk).1 = reg) := by
  refine ⟨?_, length_lastN_le _ _, ?_⟩
  · rw [validateUser_success_eq hashFn reg now uname key lic user hu hk hfind
      hexp hact hfu hua, ← pushLogin_eq_lastN]
    exact lookupLicense_setLicense reg (hashFn key) lic _ hfind
  · intro un lk reason hinv
    exact validateUser_fail_fst hashFn reg now un lk reason hinv

/-- Witness for C6: a successful user validation on the demo registry
records one history entry. -/
theorem claim_login_history_bound_witness :
    lookupLicense
        (validateUser id regWithUser 0 (some "ahmed") (some "VET-c1-ABC")).1
        (id "VET-c1-ABC") =
      some { licWithUser with
        loginHistory := some (lastN 100 ((licWithUser.loginHistory.getD []) ++
          [{ username := some "ahmed", timestamp := 0, success := true }])),
        usageCount := licWithUser.usageCount + 1 }
    ∧ (lastN 100 ((licWithUser.loginHistory.getD []) ++
        [{ username := some "ahmed", timestamp := 0,
           success := true }])).length ≤ 100 :=
  ⟨(claim_login_history_bound id regWithUser 0 "ahmed" "VET-c1-ABC"
      licWithUser userDemo (by decide) (by decide) (by decide) (by decide)
      (by decide) (by decide) (by decide)).1,
   (claim_login_history_bound id regWithUser 0 "ahmed" "VET-c1-ABC"
      licWithUser userDemo (by decide) (by decide) (by decide) (by decide)
      (by decide) (by decide) (by decide)).2.1⟩

/-- **C7.** `Extend` requires `daysToAdd > 0`, failing with a
validation error on a missing, zero or negative value; on an existing
license it adds exactly `daysToAdd · 86400000` ms (86400 s per day) to
`expirationDate` and `daysToAdd` to `validityDays`, leaving every
other field unchanged (the stored record is the literal update). -/
theorem claim_extend
    (reg : Registry) (h : String) (lic : License) (d : Int)
    (hh : h ≠ "") (hd : 0 < d)
    (hfind : lookupLicense reg h = some lic) :
    extend reg h (some d) =
      (setLicense reg h { lic with
        expirationDate := lic.expirationDate + d * msPerDay,
        validityDays := lic.validityDays + d },
       .ok { lic with
        expirationDate := lic.expirationDate + d * msPerDay,
        validityDays := lic.validityDays + d })
    ∧ lookupLicense (extend reg h (some d)).1 h =
        some { lic with
          expirationDate := lic.expirationDate + d * msPerDay,
          validityDays := lic.validityDays + d }
    ∧ extend reg h none = (reg, .validationError)
    ∧ (∀ d' : Int, d' ≤ 0 →
        extend reg h (some d') = (reg, .validationError)) := by
  have hbool : (h == "") = false := by
    simp only [beq_eq_false_iff_ne, ne_eq]
    exact hh
  have hdle : ¬ d ≤ 0 := by omega
  have heq : extend reg h (some d) =
      (setLicense reg h { lic with
        expirationDate := lic.expirationDate + d * msPerDay,
        validityDays := lic.validityDays + d },
       .ok { lic with
        expirationDate := lic.expirationDate + d * msPerDay,
        validityDays := lic.validityDays + d }) := by
    simp [extend, hbool, hdle, hfind]
  refine ⟨heq, ?_, ?_, ?_⟩
  · rw [heq]
    exact lookupLicense_setLicense reg h lic _ hfind
  · simp [extend]
  · intro d' hle
    simp [extend, hle]

/-- Witness for C7: extending the demo license by 30 days. -/
theorem claim_extend_witness :
    extend regDemo "VET-c1-ABC" (some 30) =
      (setLicense regDemo "VET-c1-ABC" { licDemo with
        expirationDate := licDemo.expirationDate + 30 * msPerDay,
        validityDays := licDemo.validityDays + 30 },
       .ok { licDemo with
        expirationDate := licDemo.expirationDate + 30 * msPerDay,
        validityDays := licDemo.validityDays + 30 })
    ∧ lookupLicense (extend regDemo "VET-c1-ABC" (some 30)).1 "VET-c1-ABC" =
        some { licDemo with
          expirationDate := licDemo.expirationDate + 30 * msPerDay,
          validityDays := licDemo.validityDays + 30 }
    ∧ extend regDemo "VET-c1-ABC" none = (regDemo, .validationError)
    ∧ extend regDemo "VET-c1-ABC" (some 0) = (regDemo, .validationError) := by
  obtain ⟨h1, h2, h3, h4⟩ := claim_extend regDemo "VET-c1-ABC" licDemo 30
    (by decide) (by decide) (by decide)
  exact ⟨h1, h2, h3, h4 0 (by decide)⟩

/-- **C8.** `AddUser` fails with NotFound when the license is missing;
fails as a duplicate when the `username` is already present under
case-sensitive exact (`===`) match, leaving the registry — hence the
user list — unchanged; otherwise appends exactly one assignment with
`addedAt = now` and `isActive = true`. -/
theorem claim_addUser_errors
    (reg : Registry) (h : String) (now : Int) (un rl : Option String)
    (lic : License) :
    (lookupLicense reg h = none → addUser reg h now un rl = (reg, .notFound))
    ∧ (∀ u0, lookupLicense reg h = some lic →
        (lic.users.getD []).find? (fun u => u.username == un) = some u0 →
        addUser reg h now un rl = (reg, .duplicate))
    ∧ (lookupLicense reg h = some lic →
        (lic.users.getD []).find? (fun u => u.username == un) = none →
        addUser reg h now un rl =
          (setLicense reg h { lic with users := some ((lic.users.getD []) ++
            [{ username := un, role := rl.getD "user", addedAt := now,
               isActive := true }]) },
           .ok { username := un, role := rl.getD "user", addedAt := now,
                 isActive := true })
        ∧ usersOf { lic with users := some ((lic.users.getD []) ++
            [{ username := un, role := rl.getD "user", addedAt := now,
               isActive := true }]) } =
          usersOf lic ++
            [{ username := un, role := rl.getD "user", addedAt := now,
               isActive := true }]) := by
  refine ⟨?_, ?_, ?_⟩
  · intro hnone
    simp [addUser, hnone]
  · intro u0 hfind hdup
    simp [addUser, hfind, hdup]
  · intro hfind hnodup
    exact ⟨by simp [addUser, hfind, hnodup], rfl⟩

/-- Witness for C8: NotFound on a missing hash, duplicate on the
already-assigned user (registry unchanged), and a fresh append. -/
theorem claim_addUser_errors_witness :
    addUser regWithUser "NOPE" 7 (some "ahmed") none =
      (regWithUser, .notFound)
    ∧ addUser regWithUser "VET-c1-ABC" 7 (some "ahmed") none =
      (regWithUser, .duplicate)
    ∧ addUser regWithUser "VET-c1-ABC" 7 (some "sara") none =
      (setLicense regWithUser "VET-c1-ABC"
        { licWithUser with users := some ((licWithUser.users.getD []) ++
          [{ username := some "sara", role := (none : Option String).getD "user",
             addedAt := 7, isActive := true }]) },
       .ok { username := some "sara", role := (none : Option String).getD "user",
             addedAt := 7, isActive := true }) :=
  ⟨(claim_addUser_errors regWithUser "NOPE" 7 (some "ahmed") none
      licWithUser).1 (by decide),
   (claim_addUser_errors regWithUser "VET-c1-ABC" 7 (some "ahmed") none
      licWithUser).2.1 userDemo (by decide) (by decide),
   ((claim_addUser_errors regWithUser "VET-c1-ABC" 7 (some "sara") none
      licWithUser).2.2 (by decide) (by decide)).1⟩

/-- **C10.** `AddUser` performs no validation on `username`: for any
value `un` (in particular a missing `none` or an empty-string
`some ""`) not yet present, the call succeeds — there is no validation
failure — appending an assignment whose `username` is exactly that
value, and an identical second call then fails as a duplicate with the
registry unchanged. -/
theorem claim_addUser_no_validation
    (reg : Registry) (h : String) (now now' : Int) (un : Option String)
    (lic : License)
    (hfind : lookupLicense reg h = some lic)
    (hnomem : (lic.users.getD []).find? (fun u => u.username == un) = none) :
    addUser reg h now un none =
      (setLicense reg h { lic with users := some ((lic.users.getD []) ++
        [{ username := un, role := "user", addedAt := now,
           isActive := true }]) },
       .ok { username := un, role := "user", addedAt := now,
             isActive := true })
    ∧ addUser (addUser reg h now un none).1 h now' un none =
        ((addUser reg h now un none).1, .duplicate) := by
  have heq1 : addUser reg h now un none =
      (setLicense reg h { lic with users := some ((lic.users.getD []) ++
        [{ username := un, role := "user", addedAt := now,
           isActive := true }]) },
       .ok { username := un, role := "user", addedAt := now,
             isActive := true }) := by
    simp [addUser, hfind, hnomem]
  refine ⟨heq1, ?_⟩
  rw [heq1]
  have hl1 : lookupLicense (setLicense reg h
      { lic with users := some ((lic.users.getD []) ++
        [{ username := un, role := "user", addedAt := now,
           isActive := true }]) }) h =
      some { lic with users := some ((lic.users.getD []) ++
        [{ username := un, role := "user", addedAt := now,
           isActive := true }]) } :=
    lookupLicense_setLicense reg h lic _ hfind
  have hfind2 : ((lic.users.getD []) ++
      [({ username := un, role := "user", addedAt := now,
          isActive := true } : UserAssignment)]).find?
        (fun u => u.username == un) =
      some ({ username := un, role := "user", addedAt := now,
              isActive := true } : UserAssignment) := by
    rw [find?_append_of_none hnomem]
    simp [List.find?_cons]
  simp [addUser, hl1, hfind2]

/-- Witness for C10: adding a user with a missing username (`none`)
succeeds and a second identical call is rejected as a duplicate. -/
theorem claim_addUser_no_validation_witness :
    addUser regWithUser "VET-c1-ABC" 7 none none =
      (setLicense regWithUser "VET-c1-ABC"
        { licWithUser with users := some ((licWithUser.users.getD []) ++
          [{ username := none, role := "user", addedAt := 7,
             isActive := true }]) },
       .ok { username := none, role := "user", addedAt := 7,
             isActive := true })
    ∧ addUser (addUser regWithUser "VET-c1-ABC" 7 none none).1 "VET-c1-ABC" 8
        none none =
      ((addUser regWithUser "VET-c1-ABC" 7 none none).1, .duplicate) :=
  claim_addUser_no_validation regWithUser "VET-c1-ABC" 7 8 none licWithUser
    (by decide) (by decide)

/-- **C9.** `Stats` classifies every record in a single pass at call
time: `expired` counts exactly the records whose `expirationDate` is
in the past, `expiringIn30Days` exactly the non-expired ones expiring
within 30 days, `active` and `inactive` partition the records by
`isActive` (so `active + inactive = total`), and
`available = total - active`. -/
theorem claim_stats_classification (reg : Registry) (now : Int) :
    (stats reg now).total = reg.length
    ∧ (stats reg now).expired =
        reg.countP (fun p => decide (p.2.expirationDate < now))
    ∧ (stats reg now).expiringIn30Days =
        reg.countP (fun p => decide (¬ p.2.expirationDate < now ∧
          p.2.expirationDate - now ≤ 30 * msPerDay))
    ∧ (stats reg now).active = reg.countP (fun p => p.2.isActive)
    ∧ (stats reg now).inactive = reg.countP (fun p => !p.2.isActive)
    ∧ (stats reg now).active + (stats reg now).inactive = (stats reg now).total
    ∧ (stats reg now).available =
        (stats reg now).total - (stats reg now).active := by
  obtain ⟨f1, f2, f3, f4, f5, f6, f7⟩ := statsFold_fields now reg
    { total := reg.length, active := 0, inactive := 0, expired := 0,
      expiringIn30Days := 0, timeToResolve := "0h", available := 0 }
  have ht : (stats reg now).total = reg.length := by simpa [stats] using f1
  have he : (stats reg now).expired =
      reg.countP (fun p => decide (p.2.expirationDate < now)) := by
    simpa [stats] using f4
  have hx : (stats reg now).expiringIn30Days =
      reg.countP (fun p => decide (¬ p.2.expirationDate < now ∧
        p.2.expirationDate - now ≤ 30 * msPerDay)) := by
    simpa [stats] using f5
  have ha : (stats reg now).active = reg.countP (fun p => p.2.isActive) := by
    simpa [stats] using f6
  have hi : (stats reg now).inactive =
      reg.countP (fun p => !p.2.isActive) := by
    simpa [stats] using f7
  refine ⟨ht, he, hx, ha, hi, ?_, rfl⟩
  rw [ha, hi, ht]
  simpa using countP_bool_split (fun p => p.2.isActive) reg

end VetCare
